import Mathlib

/-!
Verification model of the single-file FastAPI service `src/main.py`
(a SoundCloud audio downloader with an ephemeral file lifecycle).

The Python program is shallowly embedded: each endpoint body becomes a pure
Lean function over an explicit filesystem state (a list of directory
entries), the external extraction tool (`yt_dlp`) is represented by an
environment record carrying its observable outcomes, and the fallibility of
`Path.unlink` is represented by a function saying which names fail to
unlink.  Machine-level caveats of the embedding are noted at each
definition.
-/

namespace SC

/-! ### Title sanitization (main.py line 123-125)

`safe_title = "".join(c for c in title if c.isalnum() or c in (' ', '-', '_')).strip()`
`if not safe_title: safe_title = "download"`

`str.isalnum` is modelled by `Char.isAlphanum` (faithful on the ASCII
range); `str.strip` strips Python whitespace, modelled on the ASCII
whitespace characters (the only whitespace that can reach it here). -/

/-- The keep-predicate of the generator expression on main.py line 123:
`c.isalnum() or c in (' ', '-', '_')`. -/
def keepChar (c : Char) : Bool :=
  c.isAlphanum || c = ' ' || c = '-' || c = '_'

/-- ASCII whitespace characters stripped by Python `str.strip()`. -/
def pyIsSpaceChar (c : Char) : Bool :=
  c = ' ' || c = '\t' || c = '\n' || c = '\r' || c = '\x0b' || c = '\x0c'

/-- Model of Python `str.strip()`: drop whitespace from both ends. -/
def pyStrip (s : String) : String :=
  String.mk (((s.data.dropWhile pyIsSpaceChar).reverse.dropWhile pyIsSpaceChar).reverse)

/-- Model of main.py lines 123-125: filter the title through `keepChar`,
strip, and fall back to `"download"` when empty. -/
def pySanitize (title : String) : String :=
  let s := pyStrip (String.mk (title.data.filter keepChar))
  if s = "" then "download" else s

/-- The sanitizer as the claim words it (refinement comparison only):
keep exactly alphanumeric, space, hyphen, underscore, or PERIOD;
fall back to `"download"` when empty.  This follows the claim's text,
not the source. -/
def sanitize_per_claim (title : String) : String :=
  let s := String.mk (title.data.filter
    (fun c => c.isAlphanum || c = ' ' || c = '-' || c = '_' || c = '.'))
  if s = "" then "download" else s

/-- Drop `' '` from both ends of a character list. -/
def stripSpaces (l : List Char) : List Char :=
  ((l.dropWhile (fun c => c = ' ')).reverse.dropWhile (fun c => c = ' ')).reverse

/-- The sanitizer as the amended claim words it: keep exactly
alphanumeric, space, hyphen or underscore (period removed too), then strip
leading and trailing spaces; fall back to `"download"` when empty. -/
def sanitize_amended (title : String) : String :=
  let kept := title.data.filter (fun c => c.isAlphanum || [' ', '-', '_'].contains c)
  let s := stripSpaces kept
  if s.isEmpty then "download" else String.mk s

/-! ### Filesystem model

The storage root `DOWNLOAD_DIR` is a list of directory entries; `glob("*")`
enumerates it in list order.  `unlinkFails name = true` models
`Path.unlink` raising an `OSError` for that entry. -/

/-- One directory entry under `DOWNLOAD_DIR`: its name, its
`stat().st_mtime`, and whether `is_file()` holds. -/
structure FsFile where
  name : String
  mtime : Int
  isFile : Bool
deriving DecidableEq, Repr

/-- The loop of `cleanup_old_files_sync` (main.py lines 39-43):
`for file in DOWNLOAD_DIR.glob("*"): if file.is_file() and
file.stat().st_mtime < cutoff_time: file.unlink(); deleted_count += 1`.
Returns (remaining entries, names deleted in order, first unlink error).
An unlink error propagates out of the loop immediately: the current entry
and everything after it are left untouched. -/
def sweepLoop (cutoff : Int) (unlinkFails : String → Bool) :
    List FsFile → List FsFile × List String × Option String
  | [] => ([], [], none)
  | f :: rest =>
    if f.isFile && decide (f.mtime < cutoff) then
      if unlinkFails f.name then (f :: rest, [], some f.name)
      else
        let r := sweepLoop cutoff unlinkFails rest
        (r.1, f.name :: r.2.1, r.2.2)
    else
      let r := sweepLoop cutoff unlinkFails rest
      (f :: r.1, r.2.1, r.2.2)

/-- Model of `cleanup_old_files_sync(max_age_seconds)` (main.py lines
34-47): `cutoff_time = time.time() - max_age_seconds`, then the sweep
loop; the surrounding `try/except` catches any loop error and only prints
it, so the function always returns normally (the caught error is the third
component). -/
def cleanup_old_files_sync (maxAge now : Int) (unlinkFails : String → Bool)
    (files : List FsFile) : List FsFile × List String × Option String :=
  sweepLoop (now - maxAge) unlinkFails files

/-- Model of `startup_cleanup` (main.py lines 29-32): the startup hook
calls `cleanup_old_files_sync(600)`. -/
def startup_cleanup (now : Int) (unlinkFails : String → Bool)
    (files : List FsFile) : List FsFile × List String × Option String :=
  cleanup_old_files_sync 600 now unlinkFails files

/-- Model of the sweep run at the top of `download_track` (main.py line
60): `cleanup_old_files_sync(600)`. -/
def pre_download_sweep (now : Int) (unlinkFails : String → Bool)
    (files : List FsFile) : List FsFile × List String × Option String :=
  cleanup_old_files_sync 600 now unlinkFails files

/-- The loop of the `DELETE /cleanup` endpoint (main.py lines 201-205):
`for file in DOWNLOAD_DIR.glob("*"): if file.is_file(): file.unlink();
deleted_count += 1`.  Same shape as `sweepLoop` without the age test; an
unlink error propagates out immediately. -/
def purgeLoop (unlinkFails : String → Bool) :
    List FsFile → List FsFile × List String × Option String
  | [] => ([], [], none)
  | f :: rest =>
    if f.isFile then
      if unlinkFails f.name then (f :: rest, [], some f.name)
      else
        let r := purgeLoop unlinkFails rest
        (r.1, f.name :: r.2.1, r.2.2)
    else
      let r := purgeLoop unlinkFails rest
      (f :: r.1, r.2.1, r.2.2)

/-- Model of the `DELETE /cleanup` endpoint `cleanup_old_files`
(main.py lines 197-208): on a clean pass it returns the success message
with the deleted count; any error raised inside the `try` becomes
`HTTPException(status_code=500, detail=str(e))`, modelled as
`Except.error (500, failing name)`.  The second component is the
filesystem state after the call. -/
def cleanup_old_files (unlinkFails : String → Bool) (files : List FsFile) :
    Except (Nat × String) String × List FsFile :=
  let r := purgeLoop unlinkFails files
  match r.2.2 with
  | none => (Except.ok ("クリーンアップ完了: " ++ toString r.2.1.length ++ "ファイル削除"), r.1)
  | some e => (Except.error (500, e), r.1)

/-! ### Percent-coding (`urllib.parse.quote` / `unquote`, main.py line 11)

`quote` UTF-8-encodes the string and percent-escapes every byte outside
the safe set (letters, digits, `_.-~` and the default `safe='/'`).
`unquote` turns maximal runs of `%XX` escapes into bytes and decodes them
as UTF-8 with `errors='replace'`; other characters pass through. -/

/-- UTF-8 encoding of one scalar value, as a list of byte values. -/
def utf8EncodeChar (c : Char) : List Nat :=
  let v := c.toNat
  if v < 0x80 then [v]
  else if v < 0x800 then [0xC0 + v / 64, 0x80 + v % 64]
  else if v < 0x10000 then [0xE0 + v / 4096, 0x80 + (v / 64) % 64, 0x80 + v % 64]
  else [0xF0 + v / 262144, 0x80 + (v / 4096) % 64, 0x80 + (v / 64) % 64, 0x80 + v % 64]

/-- UTF-8 continuation byte test. -/
def isCont (b : Nat) : Bool := 0x80 ≤ b && b ≤ 0xBF

/-- Allowed second byte after a three-byte lead (excludes overlong forms
and surrogates, as CPython's decoder does). -/
def cont2ok (b b2 : Nat) : Bool :=
  if b = 0xE0 then 0xA0 ≤ b2 && b2 ≤ 0xBF
  else if b = 0xED then 0x80 ≤ b2 && b2 ≤ 0x9F
  else isCont b2

/-- Allowed second byte after a four-byte lead (excludes overlong forms
and values above U+10FFFF). -/
def cont4ok (b b2 : Nat) : Bool :=
  if b = 0xF0 then 0x90 ≤ b2 && b2 ≤ 0xBF
  else if b = 0xF4 then 0x80 ≤ b2 && b2 ≤ 0x8F
  else isCont b2

/-- U+FFFD, the replacement character emitted for invalid sequences. -/
def replChar : Char := Char.ofNat 0xFFFD

/-- UTF-8 decoding with replacement of invalid subsequences (the
behaviour of `bytes.decode('utf-8', errors='replace')` used inside
`unquote`): a maximal invalid subsequence yields one U+FFFD. -/
def utf8Decode : List Nat → List Char
  | [] => []
  | b :: bs =>
    if b < 0x80 then Char.ofNat b :: utf8Decode bs
    else if 0xC2 ≤ b && b ≤ 0xDF then
      match bs with
      | b2 :: bs2 =>
        if isCont b2 then Char.ofNat ((b - 0xC0) * 64 + (b2 - 0x80)) :: utf8Decode bs2
        else replChar :: utf8Decode (b2 :: bs2)
      | [] => [replChar]
    else if 0xE0 ≤ b && b ≤ 0xEF then
      match bs with
      | b2 :: bs2 =>
        if cont2ok b b2 then
          match bs2 with
          | b3 :: bs3 =>
            if isCont b3 then
              Char.ofNat ((b - 0xE0) * 4096 + (b2 - 0x80) * 64 + (b3 - 0x80)) :: utf8Decode bs3
            else replChar :: utf8Decode (b3 :: bs3)
          | [] => [replChar]
        else replChar :: utf8Decode (b2 :: bs2)
      | [] => [replChar]
    else if 0xF0 ≤ b && b ≤ 0xF4 then
      match bs with
      | b2 :: bs2 =>
        if cont4ok b b2 then
          match bs2 with
          | b3 :: bs3 =>
            if isCont b3 then
              match bs3 with
              | b4 :: bs4 =>
                if isCont b4 then
                  Char.ofNat ((b - 0xF0) * 262144 + (b2 - 0x80) * 4096 +
                    (b3 - 0x80) * 64 + (b4 - 0x80)) :: utf8Decode bs4
                else replChar :: utf8Decode (b4 :: bs4)
              | [] => [replChar]
            else replChar :: utf8Decode (b3 :: bs3)
          | [] => [replChar]
        else replChar :: utf8Decode (b2 :: bs2)
      | [] => [replChar]
    else replChar :: utf8Decode bs
termination_by l => l.length
decreasing_by all_goals simp_wf <;> omega

/-- The bytes `urllib.parse.quote` leaves unescaped: ASCII letters,
digits, `_`, `.`, `-`, `~`, and the default `safe='/'`. -/
def isSafeByte (b : Nat) : Bool :=
  (0x41 ≤ b && b ≤ 0x5A) || (0x61 ≤ b && b ≤ 0x7A) || (0x30 ≤ b && b ≤ 0x39) ||
  b = 0x5F || b = 0x2E || b = 0x2D || b = 0x7E || b = 0x2F

/-- Uppercase hexadecimal digit (as `quote`'s `%XX` escapes use). -/
def hexDigitUpper (n : Nat) : Char :=
  if n < 10 then Char.ofNat (48 + n) else Char.ofNat (55 + n)

/-- `quote`'s treatment of one byte: keep it when safe, else `%XX`. -/
def quoteByte (b : Nat) : List Char :=
  if isSafeByte b then [Char.ofNat b]
  else ['%', hexDigitUpper (b / 16), hexDigitUpper (b % 16)]

/-- Model of `urllib.parse.quote(s)` (default `safe='/'`). -/
def quote (s : String) : String :=
  String.mk ((s.data.flatMap utf8EncodeChar).flatMap quoteByte)

/-- Hexadecimal digit test (both cases), as `unquote` accepts. -/
def isHexDigit (c : Char) : Bool :=
  ('0' ≤ c && c ≤ '9') || ('A' ≤ c && c ≤ 'F') || ('a' ≤ c && c ≤ 'f')

/-- Value of a hexadecimal digit character. -/
def hexVal (c : Char) : Nat :=
  if '0' ≤ c && c ≤ '9' then c.toNat - 48
  else if 'A' ≤ c && c ≤ 'F' then c.toNat - 55
  else c.toNat - 87

/-- Tokenize `unquote`'s input: a `%XX` escape with two hexadecimal
digits yields the byte (Sum.inr); anything else, including a `%` not
followed by two hexadecimal digits, passes through as a literal
character (Sum.inl). -/
def tokens : List Char → List (Sum Char Nat)
  | [] => []
  | '%' :: h :: l :: rest =>
    if isHexDigit h && isHexDigit l then
      Sum.inr (hexVal h * 16 + hexVal l) :: tokens rest
    else Sum.inl '%' :: tokens (h :: l :: rest)
  | c :: rest => Sum.inl c :: tokens rest

/-- Group maximal runs of consecutive escape bytes, as `unquote` collects
consecutive `%XX` escapes into one byte string before decoding it. -/
def runs : List (Sum Char Nat) → List (Sum Char (List Nat))
  | [] => []
  | Sum.inl c :: t => Sum.inl c :: runs t
  | Sum.inr b :: t =>
    match runs t with
    | Sum.inr bs :: r => Sum.inr (b :: bs) :: r
    | r => Sum.inr [b] :: r

/-- Decode the grouped tokens: literals pass through, each byte run is
UTF-8-decoded with replacement. -/
def decodeRuns (l : List (Sum Char (List Nat))) : List Char :=
  l.flatMap (fun x => match x with | Sum.inl c => [c] | Sum.inr bs => utf8Decode bs)

/-- Model of `urllib.parse.unquote(s)` (default utf-8 / replace). -/
def unquote (s : String) : String :=
  String.mk (decodeRuns (runs (tokens s.data)))

/-! ### `GET /file/{filename}` (main.py lines 151-195) -/

/-- The observable head of the `FileResponse` built on main.py lines
190-195: status, `media_type='audio/mpeg'`, and the explicit
`Content-Disposition` header. -/
structure FileRespHead where
  status : Nat
  mediaType : String
  contentDisposition : String
deriving DecidableEq, Repr

/-- The name used in the disposition header (main.py lines 174-179):
`if download_name: final_filename = unquote(download_name) else:
final_filename = filename`.  A missing query parameter is `none`; Python's
truthiness makes the empty string take the `else` branch too. -/
def finalFilename (filename : String) (download_name : Option String) : String :=
  match download_name with
  | some d => if d = "" then filename else unquote d
  | none => filename

/-- The header value built on main.py lines 183-186:
`f-string attachment; filename="{encoded}"; filename*=UTF-8..{encoded}`
with `encoded = quote(final_filename)`. -/
def dispositionHeader (finalName : String) : String :=
  "attachment; filename=\"" ++ quote finalName ++ "\"; filename*=UTF-8\x27\x27" ++
    quote finalName

/-- Model of the `GET /file/{filename}` endpoint (main.py lines 151-195).
If no entry named `filename` exists, 404.  Otherwise the `FileResponse`
head is returned and the background task `delete_file` (lines 163-169)
runs after the response is sent: it unlinks the file; `unlinkFails = true`
models `unlink` raising, which `delete_file` catches and prints, leaving
the already-sent response unaffected.  The second component is the
filesystem state after the background task. -/
def get_file (filename : String) (download_name : Option String)
    (unlinkFails : Bool) (files : List FsFile) :
    Except (Nat × String) FileRespHead × List FsFile :=
  if files.any (fun f => f.name = filename) then
    let resp : FileRespHead :=
      { status := 200
        mediaType := "audio/mpeg"
        contentDisposition := dispositionHeader (finalFilename filename download_name) }
    let after := if unlinkFails then files else files.filter (fun f => f.name ≠ filename)
    (Except.ok resp, after)
  else
    (Except.error (404, "ファイルが見つかりません"), files)

/-! ### `POST /download` (main.py lines 56-149) -/

/-- The fields of the `yt_dlp` info dictionary read on main.py lines
71-72: `info.get('filesize')`, `info.get('filesize_approx', 0)`,
`info.get('title', 'unknown')`.  `none` models an absent (or null)
field. -/
structure TrackInfo where
  filesize : Option Nat
  filesize_approx : Option Nat
  title : Option String
deriving DecidableEq, Repr

/-- main.py line 71: `filesize = info.get('filesize') or
info.get('filesize_approx', 0)` — Python's `or` falls through on a falsy
(zero or missing) first operand. -/
def effectiveFilesize (i : TrackInfo) : Nat :=
  match i.filesize with
  | some n => if n = 0 then i.filesize_approx.getD 0 else n
  | none => i.filesize_approx.getD 0

/-- main.py line 91: `MAX_SIZE = 13 * 1024 * 1024`. -/
def MAX_SIZE : Nat := 13 * 1024 * 1024

/-- One decimal digit of megabytes, rounded as Python's
`f"{filesize / (1024 * 1024):.1f}"` rounds: `filesize / (1024 * 1024)`
is a dyadic rational, exactly representable in a double for any
realistic size (below 2^53), and `:.1f` rounds it to tenths with
ties-to-even.  Returns the number of tenths of a megabyte. -/
def tenthsMB (n : Nat) : Nat :=
  let q := 5 * n / 524288
  let r := 5 * n % 524288
  if 262144 < r then q + 1
  else if r < 262144 then q
  else if q % 2 = 0 then q else q + 1

/-- The `{size_mb:.1f}` text of main.py line 93-94. -/
def fmtMB (n : Nat) : String :=
  toString (tenthsMB n / 10) ++ "." ++ toString (tenthsMB n % 10)

/-- main.py line 83: the 400 detail when the probed size is zero. -/
def sizeUnknownMsg : String :=
  "ファイルサイズが取得できませんでした。この楽曲はダウンロードできない可能性があります。"

/-- main.py line 94: the 400 detail when the probed size exceeds
`MAX_SIZE`; it embeds the human-readable `{size_mb:.1f}MB`. -/
def sizeExceededMsg (filesize : Nat) : String :=
  "ファイルサイズが大きすぎます (" ++ fmtMB filesize ++
    "MB)。13MB以下のファイルのみダウンロード可能です。"

/-- The JSON body returned on main.py lines 136-141. -/
structure DownloadResponse where
  success : Bool
  title : String
  safe_filename : String
  download_url : String
deriving DecidableEq, Repr

/-- The observable behaviour of the external world during one
`POST /download` request: the outcome of the metadata probe
(`ydl.extract_info(url, download=False)`, line 70 — `Except.error`
models a raised exception with its `str(e)`), the outcome of the fetch
(`ydl.download([request.url])`, line 121 — `some e` models a raised
exception), the generated `file_id` (line 102), and the directory
listing seen by the glob on line 129 after the fetch. -/
structure DownloadEnv where
  probeResult : Except String TrackInfo
  fetchThrows : Option String
  file_id : String
  fetchFiles : List String
deriving Repr

/-- main.py lines 128-131: scan `DOWNLOAD_DIR.glob(f-string id.*)` and
take the first match — a name starting with the id followed by a
period (no fixed extension assumed). -/
def resolveById (file_id : String) (names : List String) : Option String :=
  names.find? (fun n => (file_id ++ ".").data.isPrefixOf n.data)

/-- main.py lines 101-141, the part after size admission: run the fetch
(an exception falls to the generic handler on lines 146-149, hence 400),
compute `safe_title` (lines 123-125), locate the produced file (lines
128-131), answer 500 `ファイルのダウンロードに失敗しました` when it is
missing (lines 133-134), else build the success body (lines 136-141)
with `safe_filename = f-string safe_title.mp3`. -/
def fetchPhase (env : DownloadEnv) (title : String) :
    Except (Nat × String) DownloadResponse :=
  match env.fetchThrows with
  | some e => Except.error (400, e)
  | none =>
    match resolveById env.file_id env.fetchFiles with
    | none => Except.error (500, "ファイルのダウンロードに失敗しました")
    | some nm =>
      Except.ok
        { success := true
          title := title
          safe_filename := pySanitize title ++ ".mp3"
          download_url := "/file/" ++ nm }

/-- Model of the `POST /download` endpoint `download_track` (main.py
lines 56-149), from the probe on: a probe exception reaches the generic
handler (lines 146-149) and becomes 400 with `str(e)`; a zero effective
size is 400 with `sizeUnknownMsg` (lines 82-88); a size above `MAX_SIZE`
is 400 with `sizeExceededMsg` (lines 90-99); otherwise the fetch phase
runs.  (The pre-download sweep of line 60 is modelled separately by
`pre_download_sweep`; it does not influence this result.) -/
def download_track (env : DownloadEnv) : Except (Nat × String) DownloadResponse :=
  match env.probeResult with
  | Except.error e => Except.error (400, e)
  | Except.ok info =>
    let filesize := effectiveFilesize info
    let title := info.title.getD "unknown"
    if filesize = 0 then Except.error (400, sizeUnknownMsg)
    else if MAX_SIZE < filesize then Except.error (400, sizeExceededMsg filesize)
    else fetchPhase env title

/-! ## Lemmas about the sweep and purge loops -/

/-- With no unlink failure, the sweep loop removes exactly the regular
files strictly older than the cutoff, reports their names in order, and
logs no error. -/
theorem sweepLoop_noFail (cutoff : Int) (files : List FsFile) :
    sweepLoop cutoff (fun _ => false) files =
      (files.filter (fun f => !(f.isFile && decide (f.mtime < cutoff))),
       (files.filter (fun f => f.isFile && decide (f.mtime < cutoff))).map FsFile.name,
       none) := by
  induction files with
  | nil => rfl
  | cons f rest ih =>
    rcases hf : f.isFile with _ | _ <;> rcases hm : decide (f.mtime < cutoff) with _ | _ <;>
      simp_all [sweepLoop]

/-- With no unlink failure, the purge loop removes exactly the regular
files, reports their names in order, and logs no error. -/
theorem purgeLoop_noFail (files : List FsFile) :
    purgeLoop (fun _ => false) files =
      (files.filter (fun f => !f.isFile),
       (files.filter (fun f => f.isFile)).map FsFile.name,
       none) := by
  induction files with
  | nil => rfl
  | cons f rest ih =>
    rcases hf : f.isFile with _ | _ <;> simp_all [purgeLoop]

/-! ## Claim C5 -/

/-- C5: a sweep with max age 600 seconds — the one run by the startup
hook and again before each download — deletes exactly the regular files
directly under the storage root whose last-modified time is strictly
older than `now - 600`, and leaves every entry within the retention
window (or that is not a regular file) in place. -/
theorem sweep600_deletes_exactly_stale (now : Int) (files : List FsFile) :
    cleanup_old_files_sync 600 now (fun _ => false) files =
      (files.filter (fun f => !(f.isFile && decide (f.mtime < now - 600))),
       (files.filter (fun f => f.isFile && decide (f.mtime < now - 600))).map FsFile.name,
       none) ∧
    startup_cleanup now (fun _ => false) files =
      cleanup_old_files_sync 600 now (fun _ => false) files ∧
    pre_download_sweep now (fun _ => false) files =
      cleanup_old_files_sync 600 now (fun _ => false) files := by
  refine ⟨?_, rfl, rfl⟩
  exact sweepLoop_noFail (now - 600) files

/-! ## Claim C8 -/

/-- C8: `DELETE /cleanup` is idempotent over an unchanged storage root:
the first call deletes all regular files and reports their count, and a
second call on the resulting state succeeds with a reported count of 0
and changes nothing. -/
theorem cleanup_purge_idempotent (files : List FsFile) :
    (cleanup_old_files (fun _ => false) files).1 =
      Except.ok ("クリーンアップ完了: " ++
        toString (files.filter (fun f => f.isFile)).length ++ "ファイル削除") ∧
    (cleanup_old_files (fun _ => false) files).2 =
      files.filter (fun f => !f.isFile) ∧
    (cleanup_old_files (fun _ => false)
        ((cleanup_old_files (fun _ => false) files).2)).1 =
      Except.ok "クリーンアップ完了: 0ファイル削除" ∧
    (cleanup_old_files (fun _ => false)
        ((cleanup_old_files (fun _ => false) files).2)).2 =
      (cleanup_old_files (fun _ => false) files).2 := by
  have h1 := purgeLoop_noFail files
  have hrem : (files.filter (fun f => !f.isFile)).filter (fun f => f.isFile) = [] := by
    simp [List.filter_filter]
  have hrem2 : (files.filter (fun f => !f.isFile)).filter (fun f => !f.isFile) =
      files.filter (fun f => !f.isFile) := by
    simp [List.filter_filter]
  have h2 := purgeLoop_noFail (files.filter (fun f => !f.isFile))
  rw [hrem, hrem2] at h2
  refine ⟨?_, ?_, ?_, ?_⟩ <;>
    (simp [cleanup_old_files, h1, h2]; try rfl)

/-! ## Claim C3 -/

/-- C3 counterexample: with entries `a` and `b` both regular and stale
and `unlink` failing only on `a`, the sweep deletes nothing — the
eligible file `b` is neither visited nor deleted, contradicting
"every other eligible file is still visited and deleted" — and the purge
endpoint answers 500 although enumeration succeeded. -/
theorem cleanup_isolation_cex :
    (cleanup_old_files_sync 600 1000 (fun n => n == "a")
        [⟨"a", 0, true⟩, ⟨"b", 0, true⟩]).1 = [⟨"a", 0, true⟩, ⟨"b", 0, true⟩] ∧
    (cleanup_old_files_sync 600 1000 (fun n => n == "a")
        [⟨"a", 0, true⟩, ⟨"b", 0, true⟩]).2.1 = [] ∧
    (cleanup_old_files (fun n => n == "a") [⟨"a", 0, true⟩, ⟨"b", 0, true⟩]).1 =
      Except.error (500, "a") := by
  exact ⟨rfl, rfl, rfl⟩

/-- If every file before the failing one unlinks fine and `f` is the
first failing deletion, the sweep loop deletes exactly the eligible
files before `f` and stops: `f` and everything after it survive. -/
theorem sweepLoop_abort (cutoff : Int) (uf : String → Bool)
    (pre post : List FsFile) (f : FsFile)
    (hpre : ∀ g ∈ pre, uf g.name = false)
    (hf : f.isFile = true) (hm : f.mtime < cutoff) (huf : uf f.name = true) :
    sweepLoop cutoff uf (pre ++ f :: post) =
      (pre.filter (fun g => !(g.isFile && decide (g.mtime < cutoff))) ++ f :: post,
       (pre.filter (fun g => g.isFile && decide (g.mtime < cutoff))).map FsFile.name,
       some f.name) := by
  induction pre with
  | nil => simp [sweepLoop, hf, hm, huf]
  | cons g rest ih =>
    have hg : uf g.name = false := hpre g (by simp)
    have ih' := ih (fun x hx => hpre x (by simp [hx]))
    rcases hgf : g.isFile with _ | _ <;>
      rcases hgm : decide (g.mtime < cutoff) with _ | _ <;>
      simp_all [sweepLoop]

/-- Purge analogue of `sweepLoop_abort`. -/
theorem purgeLoop_abort (uf : String → Bool) (pre post : List FsFile) (f : FsFile)
    (hpre : ∀ g ∈ pre, uf g.name = false)
    (hf : f.isFile = true) (huf : uf f.name = true) :
    purgeLoop uf (pre ++ f :: post) =
      (pre.filter (fun g => !g.isFile) ++ f :: post,
       (pre.filter (fun g => g.isFile)).map FsFile.name,
       some f.name) := by
  induction pre with
  | nil => simp [purgeLoop, hf, huf]
  | cons g rest ih =>
    have hg : uf g.name = false := hpre g (by simp)
    have ih' := ih (fun x hx => hpre x (by simp [hx]))
    rcases hgf : g.isFile with _ | _ <;> simp_all [purgeLoop]

/-- C3 amended: an error while deleting one file does NOT leave the rest
of the pass unaffected — it aborts the remainder.  In the age-based
sweep the error is caught and logged at pass level, earlier deletions
stand, and the failing file and every later file survive; in the
unconditional purge the same abort is surfaced as a 500 server error
even though enumeration of the directory succeeded. -/
theorem cleanup_error_aborts_pass (maxAge now : Int) (uf : String → Bool)
    (pre post : List FsFile) (f : FsFile)
    (hpre : ∀ g ∈ pre, uf g.name = false)
    (hf : f.isFile = true) (hm : f.mtime < now - maxAge) (huf : uf f.name = true) :
    cleanup_old_files_sync maxAge now uf (pre ++ f :: post) =
      (pre.filter (fun g => !(g.isFile && decide (g.mtime < now - maxAge))) ++ f :: post,
       (pre.filter (fun g => g.isFile && decide (g.mtime < now - maxAge))).map FsFile.name,
       some f.name) ∧
    (cleanup_old_files uf (pre ++ f :: post)).1 = Except.error (500, f.name) ∧
    (cleanup_old_files uf (pre ++ f :: post)).2 =
      pre.filter (fun g => !g.isFile) ++ f :: post := by
  refine ⟨sweepLoop_abort _ _ _ _ _ hpre hf hm huf, ?_, ?_⟩ <;>
    simp [cleanup_old_files, purgeLoop_abort uf pre post f hpre hf huf]

/-- Witness for C3's amended theorem at a concrete directory: `x` is
deleted, the failing `a` aborts the pass, `b` survives, and the purge
answers 500. -/
theorem cleanup_error_aborts_pass_witness :
    cleanup_old_files_sync 600 1000 (fun n => n == "a")
        ([⟨"x", 0, true⟩, ⟨"d", 0, false⟩] ++ ⟨"a", 0, true⟩ :: [⟨"b", 0, true⟩]) =
      ([⟨"x", 0, true⟩, ⟨"d", 0, false⟩].filter
          (fun g => !(g.isFile && decide (g.mtime < 1000 - 600))) ++
        ⟨"a", 0, true⟩ :: [⟨"b", 0, true⟩],
       ([⟨"x", 0, true⟩, ⟨"d", 0, false⟩].filter
          (fun g => g.isFile && decide (g.mtime < 1000 - 600))).map FsFile.name,
       some "a") ∧
    (cleanup_old_files (fun n => n == "a")
        ([⟨"x", 0, true⟩, ⟨"d", 0, false⟩] ++ ⟨"a", 0, true⟩ :: [⟨"b", 0, true⟩])).1 =
      Except.error (500, "a") ∧
    (cleanup_old_files (fun n => n == "a")
        ([⟨"x", 0, true⟩, ⟨"d", 0, false⟩] ++ ⟨"a", 0, true⟩ :: [⟨"b", 0, true⟩])).2 =
      [⟨"x", 0, true⟩, ⟨"d", 0, false⟩].filter (fun g => !g.isFile) ++
        ⟨"a", 0, true⟩ :: [⟨"b", 0, true⟩] :=
  cleanup_error_aborts_pass 600 1000 (fun n => n == "a")
    [⟨"x", 0, true⟩, ⟨"d", 0, false⟩] [⟨"b", 0, true⟩] ⟨"a", 0, true⟩
    (by decide) (by decide) (by decide) (by decide)

/-! ## Claim C4 -/

/-- C4: when the requested artifact exists, `GET /file/{name}` streams it
(status 200) and the background task then removes every entry of that
name; the post-response state does not depend on `download_name`; a
repeat `GET /file/{name}` on the resulting state answers 404; and an
unlink failure in the background task leaves the already-sent response
unchanged (only the file survives). -/
theorem get_file_single_claim (filename : String) (dn dn2 : Option String)
    (files : List FsFile) (hex : files.any (fun f => f.name = filename) = true) :
    (get_file filename dn false files).1 =
      Except.ok { status := 200
                  mediaType := "audio/mpeg"
                  contentDisposition := dispositionHeader (finalFilename filename dn) } ∧
    (get_file filename dn false files).2 =
      files.filter (fun f => f.name ≠ filename) ∧
    (get_file filename dn2 false files).2 = (get_file filename dn false files).2 ∧
    (get_file filename dn2 false ((get_file filename dn false files).2)).1 =
      Except.error (404, "ファイルが見つかりません") ∧
    (get_file filename dn true files).1 = (get_file filename dn false files).1 ∧
    (get_file filename dn true files).2 = files := by
  have h404 :
      ((files.filter (fun f => f.name ≠ filename)).any (fun f => f.name = filename)) =
        false := by
    rw [List.any_eq_false]
    intro f hf
    have hmem := List.mem_filter.mp hf
    simp_all
  simp [get_file, hex, h404]

/-- Witness for C4 at a concrete directory of one file. -/
theorem get_file_single_claim_witness :
    (get_file "u.mp3" (some "song.mp3") false [⟨"u.mp3", 0, true⟩]).1 =
      Except.ok { status := 200
                  mediaType := "audio/mpeg"
                  contentDisposition :=
                    dispositionHeader (finalFilename "u.mp3" (some "song.mp3")) } ∧
    (get_file "u.mp3" (some "song.mp3") false [⟨"u.mp3", 0, true⟩]).2 =
      [FsFile.mk "u.mp3" 0 true].filter (fun f => f.name ≠ "u.mp3") ∧
    (get_file "u.mp3" none false [⟨"u.mp3", 0, true⟩]).2 =
      (get_file "u.mp3" (some "song.mp3") false [⟨"u.mp3", 0, true⟩]).2 ∧
    (get_file "u.mp3" none false
        ((get_file "u.mp3" (some "song.mp3") false [⟨"u.mp3", 0, true⟩]).2)).1 =
      Except.error (404, "ファイルが見つかりません") ∧
    (get_file "u.mp3" (some "song.mp3") true [⟨"u.mp3", 0, true⟩]).1 =
      (get_file "u.mp3" (some "song.mp3") false [⟨"u.mp3", 0, true⟩]).1 ∧
    (get_file "u.mp3" (some "song.mp3") true [⟨"u.mp3", 0, true⟩]).2 =
      [⟨"u.mp3", 0, true⟩] :=
  get_file_single_claim "u.mp3" (some "song.mp3") none [⟨"u.mp3", 0, true⟩] (by decide)

/-! ## Claim C10 -/

/-- C10: an empty `download_name` takes the same branch as an absent one
(Python truthiness), so the endpoint behaves identically and, when the
file exists, the disposition header names the raw on-disk filename. -/
theorem get_file_empty_name_uses_disk_name (filename : String) (u : Bool)
    (files : List FsFile) :
    get_file filename (some "") u files = get_file filename none u files ∧
    (files.any (fun f => f.name = filename) = true →
      (get_file filename (some "") u files).1 =
        Except.ok { status := 200
                    mediaType := "audio/mpeg"
                    contentDisposition := "attachment; filename=\"" ++ quote filename ++
                      "\"; filename*=UTF-8\x27\x27" ++ quote filename }) := by
  constructor
  · simp [get_file, finalFilename]
  · intro hex
    simp [get_file, hex, finalFilename, dispositionHeader]

/-- Witness for C10's conditional part at a concrete directory. -/
theorem get_file_empty_name_witness :
    get_file "u.mp3" (some "") false [⟨"u.mp3", 0, true⟩] =
      get_file "u.mp3" none false [⟨"u.mp3", 0, true⟩] ∧
    (get_file "u.mp3" (some "") false [⟨"u.mp3", 0, true⟩]).1 =
      Except.ok { status := 200
                  mediaType := "audio/mpeg"
                  contentDisposition := "attachment; filename=\"" ++ quote "u.mp3" ++
                    "\"; filename*=UTF-8\x27\x27" ++ quote "u.mp3" } :=
  ⟨(get_file_empty_name_uses_disk_name "u.mp3" false [⟨"u.mp3", 0, true⟩]).1,
   (get_file_empty_name_uses_disk_name "u.mp3" false [⟨"u.mp3", 0, true⟩]).2 (by decide)⟩


/-! ## Claim C1 -/

/-- C1: admission control on the probed size.  When the probe succeeds,
a zero (or unknown, collapsed to zero by the `or` on line 71) effective
size yields 400 with the size-related message; a size above the 13 MiB
ceiling yields 400 with a message embedding the human-readable
`{size_mb:.1f}MB`; and only a strictly positive size at most the ceiling
lets the request proceed to the fetch phase. -/
theorem download_size_admission (env : DownloadEnv) (info : TrackInfo)
    (hp : env.probeResult = Except.ok info) :
    (effectiveFilesize info = 0 →
      download_track env = Except.error (400, sizeUnknownMsg)) ∧
    "ファイルサイズ".data.isPrefixOf sizeUnknownMsg.data = true ∧
    (MAX_SIZE < effectiveFilesize info →
      download_track env =
        Except.error (400, sizeExceededMsg (effectiveFilesize info)) ∧
      ∃ before after, sizeExceededMsg (effectiveFilesize info) =
        before ++ (fmtMB (effectiveFilesize info) ++ ("MB" ++ after))) ∧
    (0 < effectiveFilesize info → effectiveFilesize info ≤ MAX_SIZE →
      download_track env = fetchPhase env (info.title.getD "unknown")) := by
  refine ⟨?_, by decide, ?_, ?_⟩
  · intro h0
    simp [download_track, hp, h0]
  · intro hbig
    have h0 : effectiveFilesize info ≠ 0 := by
      intro h; rw [h] at hbig; simp [MAX_SIZE] at hbig
    refine ⟨by simp [download_track, hp, h0, hbig], ?_⟩
    refine ⟨"ファイルサイズが大きすぎます (",
      ")。13MB以下のファイルのみダウンロード可能です。", ?_⟩
    show "ファイルサイズが大きすぎます (" ++ fmtMB (effectiveFilesize info) ++
        "MB)。13MB以下のファイルのみダウンロード可能です。" = _
    rw [String.append_assoc]
    rfl
  · intro h0 hle
    have h0' : effectiveFilesize info ≠ 0 := by omega
    have hbig : ¬ MAX_SIZE < effectiveFilesize info := not_lt.mpr hle
    simp [download_track, hp, h0', hbig]

/-- Witness for C1 at three concrete probe outcomes: size 0 rejected,
size 100 MiB rejected with the formatted size, size 100 admitted. -/
theorem download_size_admission_witness :
    download_track ⟨Except.ok ⟨some 0, none, some "t"⟩, none, "i", []⟩ =
      Except.error (400, sizeUnknownMsg) ∧
    download_track ⟨Except.ok ⟨some 104857600, none, some "t"⟩, none, "i", []⟩ =
      Except.error (400, sizeExceededMsg 104857600) ∧
    download_track ⟨Except.ok ⟨some 100, none, some "t"⟩, none, "i", []⟩ =
      fetchPhase ⟨Except.ok ⟨some 100, none, some "t"⟩, none, "i", []⟩ "t" :=
  ⟨(download_size_admission _ ⟨some 0, none, some "t"⟩ rfl).1 (by decide),
   ((download_size_admission _ ⟨some 104857600, none, some "t"⟩ rfl).2.2.1
      (by decide)).1,
   (download_size_admission _ ⟨some 100, none, some "t"⟩ rfl).2.2.2
      (by decide) (by decide)⟩

/-! ## Claim C7 -/

/-- C7: after a successful probe, admission and fetch, the produced file
is located by scanning for a name starting with the generated id
followed by a period; when no such name exists the endpoint answers the
500 server error, and when one exists the success body references it.
Conversely every error the endpoint can produce is a 400 client error
except exactly this missing-file case, which is the only 500. -/
theorem download_resolve_and_error_statuses (env : DownloadEnv) :
    (∀ info, env.probeResult = Except.ok info →
      effectiveFilesize info ≠ 0 → ¬ MAX_SIZE < effectiveFilesize info →
      env.fetchThrows = none →
      resolveById env.file_id env.fetchFiles = none →
      download_track env =
        Except.error (500, "ファイルのダウンロードに失敗しました")) ∧
    (∀ info nm, env.probeResult = Except.ok info →
      effectiveFilesize info ≠ 0 → ¬ MAX_SIZE < effectiveFilesize info →
      env.fetchThrows = none →
      resolveById env.file_id env.fetchFiles = some nm →
      ((env.file_id ++ ".").data.isPrefixOf nm.data) = true ∧
      download_track env = Except.ok
        { success := true
          title := info.title.getD "unknown"
          safe_filename := pySanitize (info.title.getD "unknown") ++ ".mp3"
          download_url := "/file/" ++ nm }) ∧
    (∀ st d, download_track env = Except.error (st, d) →
      st = 400 ∨
      (st = 500 ∧ d = "ファイルのダウンロードに失敗しました" ∧
        env.fetchThrows = none ∧
        resolveById env.file_id env.fetchFiles = none ∧
        ∃ info, env.probeResult = Except.ok info ∧
          effectiveFilesize info ≠ 0 ∧ ¬ MAX_SIZE < effectiveFilesize info)) := by
  refine ⟨?_, ?_, ?_⟩
  · intro info hp h0 hbig hft hres
    simp [download_track, hp, h0, hbig, fetchPhase, hft, hres]
  · intro info nm hp h0 hbig hft hres
    have hres' : env.fetchFiles.find?
        (fun n => (env.file_id ++ ".").data.isPrefixOf n.data) = some nm := hres
    refine ⟨?_, ?_⟩
    · have hpre2 := List.find?_some hres'
      simpa using hpre2
    · simp [download_track, hp, h0, hbig, fetchPhase, hft, hres]
  · intro st d h
    rcases hp : env.probeResult with e | info
    · simp [download_track, hp] at h
      exact Or.inl h.1.symm
    · by_cases h0 : effectiveFilesize info = 0
      · simp [download_track, hp, h0] at h
        exact Or.inl h.1.symm
      · by_cases hbig : MAX_SIZE < effectiveFilesize info
        · simp [download_track, hp, h0, hbig] at h
          exact Or.inl h.1.symm
        · rcases hft : env.fetchThrows with _ | e
          · rcases hres : resolveById env.file_id env.fetchFiles with _ | nm
            · simp [download_track, hp, h0, hbig, fetchPhase, hft, hres] at h
              exact Or.inr ⟨h.1.symm, h.2.symm, rfl, rfl, info, rfl, h0, hbig⟩
            · simp [download_track, hp, h0, hbig, fetchPhase, hft, hres] at h
          · simp [download_track, hp, h0, hbig, fetchPhase, hft] at h
            exact Or.inl h.1.symm

/-- Witness for C7: a fetch that reports success but leaves no file with
the id-period prefix on disk yields the 500; with the file present the
body references it. -/
theorem download_resolve_witness :
    download_track ⟨Except.ok ⟨some 5, none, none⟩, none, "id", ["other.mp3"]⟩ =
      Except.error (500, "ファイルのダウンロードに失敗しました") ∧
    (("id" ++ ".").data.isPrefixOf "id.opus".data) = true ∧
    download_track ⟨Except.ok ⟨some 5, none, none⟩, none, "id", ["id.opus"]⟩ =
      Except.ok
        { success := true
          title := "unknown"
          safe_filename := pySanitize "unknown" ++ ".mp3"
          download_url := "/file/" ++ "id.opus" } :=
  ⟨(download_resolve_and_error_statuses
      ⟨Except.ok ⟨some 5, none, none⟩, none, "id", ["other.mp3"]⟩).1
      ⟨some 5, none, none⟩ rfl (by decide) (by decide) rfl rfl,
   (download_resolve_and_error_statuses
      ⟨Except.ok ⟨some 5, none, none⟩, none, "id", ["id.opus"]⟩).2.1
      ⟨some 5, none, none⟩ "id.opus" rfl (by decide) (by decide) rfl rfl⟩

/-! ## Claim C9 -/

/-- C9: every successful `POST /download` body carries
`safe_filename = sanitized title + ".mp3"` unconditionally, while
`download_url` references the on-disk name found by prefix resolution,
whose extension is chosen by the transcoder and is unconstrained. -/
theorem download_safe_filename_mp3 (env : DownloadEnv) (r : DownloadResponse)
    (h : download_track env = Except.ok r) :
    r.safe_filename = pySanitize r.title ++ ".mp3" ∧
    ∃ nm, resolveById env.file_id env.fetchFiles = some nm ∧
      r.download_url = "/file/" ++ nm := by
  rcases hp : env.probeResult with e | info
  · simp [download_track, hp] at h
  · by_cases h0 : effectiveFilesize info = 0
    · simp [download_track, hp, h0] at h
    · by_cases hbig : MAX_SIZE < effectiveFilesize info
      · simp [download_track, hp, h0, hbig] at h
      · rcases hft : env.fetchThrows with _ | e
        · rcases hres : resolveById env.file_id env.fetchFiles with _ | nm
          · simp [download_track, hp, h0, hbig, fetchPhase, hft, hres] at h
          · simp [download_track, hp, h0, hbig, fetchPhase, hft, hres] at h
            exact ⟨by simp [← h], nm, rfl, by simp [← h]⟩
        · simp [download_track, hp, h0, hbig, fetchPhase, hft] at h

/-- Witness for C9: the transcoder produced `id.opus`, yet the advertised
`safe_filename` still ends in `.mp3` while `download_url` points at the
`.opus` file. -/
theorem download_safe_filename_mp3_witness :
    { success := true
      title := "My Song"
      safe_filename := "My Song.mp3"
      download_url := "/file/id.opus" : DownloadResponse }.safe_filename =
      pySanitize
        { success := true
          title := "My Song"
          safe_filename := "My Song.mp3"
          download_url := "/file/id.opus" : DownloadResponse }.title ++ ".mp3" ∧
    ∃ nm, resolveById "id" ["id.opus"] = some nm ∧
      { success := true
        title := "My Song"
        safe_filename := "My Song.mp3"
        download_url := "/file/id.opus" : DownloadResponse }.download_url =
        "/file/" ++ nm :=
  download_safe_filename_mp3
    ⟨Except.ok ⟨some 5, none, some "My Song"⟩, none, "id", ["id.opus"]⟩ _ rfl



/-! ## Claim C2 -/

/-- C2 counterexample: the claim's keep-set includes the period, but the
code's keep-set (main.py line 123) does not: on title `"a.b"` the code
produces `"ab"` while the claim-mandated sanitizer produces `"a.b"`.  The
code additionally strips outer spaces, which the claim's keeps-exactly
wording forbids: `" a "` becomes `"a"`, not `" a "`. -/
theorem sanitize_period_cex :
    pySanitize "a.b" = "ab" ∧ sanitize_per_claim "a.b" = "a.b" ∧
    pySanitize "a.b" ≠ sanitize_per_claim "a.b" ∧
    pySanitize " a " = "a" ∧ sanitize_per_claim " a " = " a " ∧
    pySanitize " a " ≠ sanitize_per_claim " a " := by
  exact ⟨rfl, rfl, by decide, rfl, rfl, by decide⟩

/-- The keep-predicate of main.py line 123 agrees with the amended
claim's wording of the allowed set (no period). -/
theorem keepChar_eq_amended (c : Char) :
    keepChar c = (c.isAlphanum || [' ', '-', '_'].contains c) := by
  simp [keepChar, List.contains, Bool.or_assoc]

/-- On characters that survive the filter, Python whitespace stripping
only ever removes the space character. -/
theorem keepChar_space_iff (c : Char) (h : keepChar c = true) :
    pyIsSpaceChar c = decide (c = ' ') := by
  by_cases h1 : c = ' '
  · subst h1; decide
  · by_cases h2 : c = '\t'
    · subst h2; exact absurd h (by decide)
    · by_cases h3 : c = '\n'
      · subst h3; exact absurd h (by decide)
      · by_cases h4 : c = '\r'
        · subst h4; exact absurd h (by decide)
        · by_cases h5 : c = '\x0b'
          · subst h5; exact absurd h (by decide)
          · by_cases h6 : c = '\x0c'
            · subst h6; exact absurd h (by decide)
            · simp [pyIsSpaceChar, h1, h2, h3, h4, h5, h6]

/-- `dropWhile` only looks at the predicate's values on the list. -/
theorem dropWhile_congr_on (p q : Char → Bool) (l : List Char)
    (h : ∀ c ∈ l, p c = q c) : l.dropWhile p = l.dropWhile q := by
  induction l with
  | nil => rfl
  | cons c t ih =>
    have hc := h c (by simp)
    rcases hq : q c with _ | _ <;>
      simp [List.dropWhile_cons, hc, hq, ih (fun x hx => h x (by simp [hx]))]

/-- On filtered titles, Python `strip()` coincides with stripping spaces
from both ends. -/
theorem pyStrip_eq_stripSpaces (l : List Char) (h : ∀ c ∈ l, keepChar c = true) :
    pyStrip (String.mk l) = String.mk (stripSpaces l) := by
  unfold pyStrip stripSpaces
  apply congrArg String.mk
  have h1 : l.dropWhile pyIsSpaceChar = l.dropWhile (fun c => decide (c = ' ')) :=
    dropWhile_congr_on _ _ l (fun c hc => keepChar_space_iff c (h c hc))
  rw [h1]
  apply congrArg List.reverse
  apply dropWhile_congr_on
  intro c hc
  have hcl : c ∈ l := by
    have hmem := List.mem_reverse.mp hc
    exact (List.dropWhile_sublist _).subset hmem
  exact keepChar_space_iff c (h c hcl)

/-- C2 amended: the sanitizer keeps exactly the characters that are
alphanumeric, space, hyphen, or underscore (the period is removed like
any other character), then strips leading and trailing spaces, and falls
back to the literal `"download"` when the result is empty. -/
theorem sanitize_amended_agrees (title : String) :
    pySanitize title = sanitize_amended title := by
  unfold pySanitize sanitize_amended
  have hfil : title.data.filter (fun c => c.isAlphanum || [' ', '-', '_'].contains c) =
      title.data.filter keepChar :=
    List.filter_congr (fun c _ => (keepChar_eq_amended c).symm)
  rw [hfil]
  have hmem : ∀ c ∈ title.data.filter keepChar, keepChar c = true :=
    fun c hc => (List.mem_filter.mp hc).2
  rw [pyStrip_eq_stripSpaces _ hmem]
  by_cases he : stripSpaces (title.data.filter keepChar) = []
  · simp [he]
  · have hne : String.mk (stripSpaces (title.data.filter keepChar)) ≠ "" := by
      intro hcon
      exact he (congrArg String.data hcon)
    simp [he, hne]



/-! ## Claim C6: the percent-coding round-trip stack -/

/-- `Char.ofNat` inverts `Char.toNat` on valid scalar values. -/

theorem char_toNat_ofNat (n : Nat) (h : Nat.isValidChar n) :
    (Char.ofNat n).toNat = n := by
  simp [Char.ofNat, h, Char.ofNatAux, Char.toNat, UInt32.toNat, BitVec.toNat_ofNatLt]

theorem utf8Decode_ascii (b : Nat) (bs : List Nat) (h : b < 0x80) :
    utf8Decode (b :: bs) = Char.ofNat b :: utf8Decode bs := by
  conv_lhs => rw [utf8Decode.eq_def]
  simp [h]

theorem utf8Decode_two (b b2 : Nat) (bs : List Nat)
    (h1 : 0xC2 ≤ b) (h2 : b ≤ 0xDF) (hc : isCont b2 = true) :
    utf8Decode (b :: b2 :: bs) =
      Char.ofNat ((b - 0xC0) * 64 + (b2 - 0x80)) :: utf8Decode bs := by
  have hnb : ¬ b < 0x80 := by omega
  conv_lhs => rw [utf8Decode.eq_def]
  simp [hnb, h1, h2, hc]

theorem utf8Decode_three (b b2 b3 : Nat) (bs : List Nat)
    (h1 : 0xE0 ≤ b) (h2 : b ≤ 0xEF) (hc2 : cont2ok b b2 = true)
    (hc3 : isCont b3 = true) :
    utf8Decode (b :: b2 :: b3 :: bs) =
      Char.ofNat ((b - 0xE0) * 4096 + (b2 - 0x80) * 64 + (b3 - 0x80)) ::
        utf8Decode bs := by
  have hnb : ¬ b < 0x80 := by omega
  have hn2 : ¬ b ≤ 0xDF := by omega
  conv_lhs => rw [utf8Decode.eq_def]
  simp [hnb, hn2, h1, h2, hc2, hc3]

theorem utf8Decode_four (b b2 b3 b4 : Nat) (bs : List Nat)
    (h1 : 0xF0 ≤ b) (h2 : b ≤ 0xF4) (hc2 : cont4ok b b2 = true)
    (hc3 : isCont b3 = true) (hc4 : isCont b4 = true) :
    utf8Decode (b :: b2 :: b3 :: b4 :: bs) =
      Char.ofNat ((b - 0xF0) * 262144 + (b2 - 0x80) * 4096 +
        (b3 - 0x80) * 64 + (b4 - 0x80)) :: utf8Decode bs := by
  have hnb : ¬ b < 0x80 := by omega
  have hn2 : ¬ b ≤ 0xDF := by omega
  have hn3 : ¬ b ≤ 0xEF := by omega
  conv_lhs => rw [utf8Decode.eq_def]
  simp [hnb, hn2, hn3, h1, h2, hc2, hc3, hc4]

theorem utf8_decode_encode (c : Char) (B : List Nat) :
    utf8Decode (utf8EncodeChar c ++ B) = c :: utf8Decode B := by
  have hval : c.toNat < 0xD800 ∨ (0xDFFF < c.toNat ∧ c.toNat < 0x110000) := c.valid
  have hofn : Char.ofNat c.toNat = c := Char.ofNat_toNat c
  by_cases h1 : c.toNat < 0x80
  · have he : utf8EncodeChar c = [c.toNat] := by simp [utf8EncodeChar, h1]
    rw [he, List.singleton_append, utf8Decode_ascii _ _ h1, hofn]
  · by_cases h2 : c.toNat < 0x800
    · have he : utf8EncodeChar c =
          [0xC0 + c.toNat / 64, 0x80 + c.toNat % 64] := by
        simp [utf8EncodeChar, h1, h2]
      rw [he]
      have hb1 : 0xC2 ≤ 0xC0 + c.toNat / 64 := by omega
      have hb2 : 0xC0 + c.toNat / 64 ≤ 0xDF := by omega
      have hcont : isCont (0x80 + c.toNat % 64) = true := by
        simp [isCont]; omega
      rw [List.cons_append, List.cons_append, List.nil_append,
        utf8Decode_two _ _ _ hb1 hb2 hcont]
      have harg : (0xC0 + c.toNat / 64 - 0xC0) * 64 + (0x80 + c.toNat % 64 - 0x80) =
          c.toNat := by omega
      rw [harg, hofn]
    · by_cases h3 : c.toNat < 0x10000
      · have he : utf8EncodeChar c =
            [0xE0 + c.toNat / 4096, 0x80 + (c.toNat / 64) % 64, 0x80 + c.toNat % 64] := by
          simp [utf8EncodeChar, h1, h2, h3]
        rw [he]
        have hb1 : 0xE0 ≤ 0xE0 + c.toNat / 4096 := by omega
        have hb2 : 0xE0 + c.toNat / 4096 ≤ 0xEF := by omega
        have hc2 : cont2ok (0xE0 + c.toNat / 4096) (0x80 + (c.toNat / 64) % 64) = true := by
          unfold cont2ok
          rcases hval with hlow | ⟨hs1, hs2⟩
          · split_ifs with hE hD
            · simp only [decide_eq_true_eq, Bool.and_eq_true]; omega
            · simp only [decide_eq_true_eq, Bool.and_eq_true]; omega
            · simp only [isCont, decide_eq_true_eq, Bool.and_eq_true]; omega
          · split_ifs with hE hD
            · simp only [decide_eq_true_eq, Bool.and_eq_true]; omega
            · simp only [decide_eq_true_eq, Bool.and_eq_true]; omega
            · simp only [isCont, decide_eq_true_eq, Bool.and_eq_true]; omega
        have hc3 : isCont (0x80 + c.toNat % 64) = true := by
          simp [isCont]; omega
        rw [List.cons_append, List.cons_append, List.cons_append, List.nil_append,
          utf8Decode_three _ _ _ _ hb1 hb2 hc2 hc3]
        have harg : (0xE0 + c.toNat / 4096 - 0xE0) * 4096 +
            (0x80 + (c.toNat / 64) % 64 - 0x80) * 64 + (0x80 + c.toNat % 64 - 0x80) =
            c.toNat := by omega
        rw [harg, hofn]
      · have h4 : c.toNat < 0x110000 := by rcases hval with hlow | ⟨hs1, hs2⟩ <;> omega
        have he : utf8EncodeChar c =
            [0xF0 + c.toNat / 262144, 0x80 + (c.toNat / 4096) % 64,
             0x80 + (c.toNat / 64) % 64, 0x80 + c.toNat % 64] := by
          simp [utf8EncodeChar, h1, h2, h3]
        rw [he]
        have hb1 : 0xF0 ≤ 0xF0 + c.toNat / 262144 := by omega
        have hb2 : 0xF0 + c.toNat / 262144 ≤ 0xF4 := by omega
        have hc2 : cont4ok (0xF0 + c.toNat / 262144) (0x80 + (c.toNat / 4096) % 64) = true := by
          unfold cont4ok
          split_ifs with hE hD
          · simp only [decide_eq_true_eq, Bool.and_eq_true]; omega
          · simp only [decide_eq_true_eq, Bool.and_eq_true]; omega
          · simp only [isCont, decide_eq_true_eq, Bool.and_eq_true]; omega
        have hc3 : isCont (0x80 + (c.toNat / 64) % 64) = true := by
          simp [isCont]; omega
        have hc4 : isCont (0x80 + c.toNat % 64) = true := by
          simp [isCont]; omega
        rw [List.cons_append, List.cons_append, List.cons_append, List.cons_append,
          List.nil_append, utf8Decode_four _ _ _ _ _ hb1 hb2 hc2 hc3 hc4]
        have harg : (0xF0 + c.toNat / 262144 - 0xF0) * 262144 +
            (0x80 + (c.toNat / 4096) % 64 - 0x80) * 4096 +
            (0x80 + (c.toNat / 64) % 64 - 0x80) * 64 + (0x80 + c.toNat % 64 - 0x80) =
            c.toNat := by omega
        rw [harg, hofn]

theorem utf8EncodeChar_lt_256 (c : Char) : ∀ b ∈ utf8EncodeChar c, b < 256 := by
  intro b hb
  have hval : c.toNat < 0xD800 ∨ (0xDFFF < c.toNat ∧ c.toNat < 0x110000) := c.valid
  by_cases h1 : c.toNat < 0x80
  · simp [utf8EncodeChar, h1] at hb; omega
  · by_cases h2 : c.toNat < 0x800
    · simp [utf8EncodeChar, h1, h2] at hb
      rcases hb with hb | hb <;> omega
    · by_cases h3 : c.toNat < 0x10000
      · simp [utf8EncodeChar, h1, h2, h3] at hb
        rcases hb with hb | hb | hb <;> omega
      · have h4 : c.toNat < 0x110000 := by rcases hval with h | ⟨hs1, hs2⟩ <;> omega
        simp [utf8EncodeChar, h1, h2, h3] at hb
        rcases hb with hb | hb | hb | hb <;> omega

set_option maxRecDepth 8192 in
theorem hexRound : ∀ x : Fin 256,
    isHexDigit (hexDigitUpper (x.val / 16)) = true ∧
    isHexDigit (hexDigitUpper (x.val % 16)) = true ∧
    hexVal (hexDigitUpper (x.val / 16)) * 16 + hexVal (hexDigitUpper (x.val % 16)) =
      x.val := by decide

theorem safeByte_ne_percent (b : Nat) (hb : b < 256) (hs : isSafeByte b = true) :
    ¬ Char.ofNat b = '%' := by
  intro h
  have h1 : (Char.ofNat b).toNat = b := by
    apply char_toNat_ofNat
    exact Or.inl (by omega)
  rw [h] at h1
  have : b = 37 := by simpa using h1.symm
  subst this
  simp [isSafeByte] at hs

theorem tokens_cons_ne (c : Char) (t : List Char) (h : ¬ c = '%') :
    tokens (c :: t) = Sum.inl c :: tokens t := by
  match t with
  | [] => simp [tokens]
  | [x] => rw [tokens.eq_def]; split <;> simp_all
  | x :: y :: r => rw [tokens.eq_def]; split <;> simp_all

theorem tokens_escape (h l : Char) (rest : List Char)
    (hh : isHexDigit h = true) (hl : isHexDigit l = true) :
    tokens ('%' :: h :: l :: rest) =
      Sum.inr (hexVal h * 16 + hexVal l) :: tokens rest := by
  rw [tokens.eq_def]; simp [hh, hl]

def tokenOf (b : Nat) : Sum Char Nat :=
  if isSafeByte b then Sum.inl (Char.ofNat b) else Sum.inr b

theorem tokens_quoteByte (b : Nat) (hb : b < 256) (rest : List Char) :
    tokens (quoteByte b ++ rest) = tokenOf b :: tokens rest := by
  by_cases hs : isSafeByte b = true
  · have hq : quoteByte b = [Char.ofNat b] := by simp [quoteByte, hs]
    rw [hq, List.singleton_append,
      tokens_cons_ne _ _ (safeByte_ne_percent b hb hs)]
    simp [tokenOf, hs]
  · have hq : quoteByte b = ['%', hexDigitUpper (b / 16), hexDigitUpper (b % 16)] := by
      simp [quoteByte, hs]
    obtain ⟨hx1, hx2, hx3⟩ := hexRound ⟨b, hb⟩
    rw [hq]
    simp only [List.cons_append, List.nil_append]
    rw [tokens_escape _ _ _ hx1 hx2]
    simp [tokenOf, hs, hx3]

theorem tokens_quoted_bytes (bs : List Nat) (h : ∀ b ∈ bs, b < 256) :
    tokens (bs.flatMap quoteByte) = bs.map tokenOf := by
  induction bs with
  | nil => rfl
  | cons b rest ih =>
    rw [List.flatMap_cons, tokens_quoteByte b (h b (by simp)), List.map_cons,
      ih (fun x hx => h x (by simp [hx]))]

theorem isSafeByte_lt (b : Nat) (h : isSafeByte b = true) : b < 0x80 := by
  simp [isSafeByte] at h
  omega

def mergeRun (bs : List Nat) (r : List (Sum Char (List Nat))) :
    List (Sum Char (List Nat)) :=
  match r with
  | Sum.inr bs2 :: r2 => Sum.inr (bs ++ bs2) :: r2
  | r => Sum.inr bs :: r

theorem runs_inl (c : Char) (t : List (Sum Char Nat)) :
    runs (Sum.inl c :: t) = Sum.inl c :: runs t := rfl

theorem runs_inr (b : Nat) (t : List (Sum Char Nat)) :
    runs (Sum.inr b :: t) = mergeRun [b] (runs t) := by
  have h : runs (Sum.inr b :: t) =
      match runs t with
      | Sum.inr bs :: r => Sum.inr (b :: bs) :: r
      | r => Sum.inr [b] :: r := rfl
  rw [h]
  cases hrt : runs t with
  | nil => simp [mergeRun]
  | cons x r => cases x <;> simp [mergeRun]

theorem mergeRun_merge (b : Nat) (bs : List Nat) (r : List (Sum Char (List Nat))) :
    mergeRun [b] (mergeRun bs r) = mergeRun (b :: bs) r := by
  cases r with
  | nil => simp [mergeRun]
  | cons x r2 => cases x <;> simp [mergeRun]

theorem runs_map_inr_append (bs : List Nat) (t : List (Sum Char Nat)) (hne : bs ≠ []) :
    runs (bs.map Sum.inr ++ t) = mergeRun bs (runs t) := by
  induction bs with
  | nil => simp at hne
  | cons b rest ih =>
    cases hr : rest with
    | nil => simpa using runs_inr b t
    | cons y ys =>
      have ih' := ih (by simp [hr])
      rw [← hr] at *
      simp only [List.map_cons, List.cons_append]
      rw [runs_inr, ih', mergeRun_merge]

theorem utf8Decode_nil : utf8Decode [] = [] := by
  rw [utf8Decode.eq_def]

theorem decodeRuns_inl (c : Char) (r : List (Sum Char (List Nat))) :
    decodeRuns (Sum.inl c :: r) = c :: decodeRuns r := by simp [decodeRuns]

theorem decodeRuns_inr (bs : List Nat) (r : List (Sum Char (List Nat))) :
    decodeRuns (Sum.inr bs :: r) = utf8Decode bs ++ decodeRuns r := by simp [decodeRuns]

theorem utf8EncodeChar_ne_nil (c : Char) : utf8EncodeChar c ≠ [] := by
  simp only [utf8EncodeChar]
  split_ifs <;> simp

theorem decodeRuns_char_run (c : Char) (t : List (Sum Char Nat)) :
    decodeRuns (runs ((utf8EncodeChar c).map Sum.inr ++ t)) =
      c :: decodeRuns (runs t) := by
  rw [runs_map_inr_append _ _ (utf8EncodeChar_ne_nil c)]
  have hdec := utf8_decode_encode c []
  rw [List.append_nil] at hdec
  cases hrt : runs t with
  | nil =>
    try rw [hrt]
    simp [mergeRun, decodeRuns_inr, decodeRuns, hdec, utf8Decode_nil]
  | cons x r =>
    cases x with
    | inl ch =>
      try rw [hrt]
      simp [mergeRun, decodeRuns_inr, decodeRuns_inl, hdec, utf8Decode_nil]
    | inr bs2 =>
      try rw [hrt]
      simp only [mergeRun]
      rw [decodeRuns_inr, utf8_decode_encode c bs2, decodeRuns_inr]
      simp

theorem utf8EncodeChar_unsafe (c : Char) (hs : ¬ isSafeByte c.toNat = true) :
    ∀ b ∈ utf8EncodeChar c, isSafeByte b = false := by
  intro b hb
  by_cases h1 : c.toNat < 0x80
  · have he : utf8EncodeChar c = [c.toNat] := by simp [utf8EncodeChar, h1]
    rw [he] at hb
    simp at hb
    subst hb
    exact Bool.not_eq_true _ |>.mp hs
  · have h80 : 0x80 ≤ b := by
      by_cases h2 : c.toNat < 0x800
      · simp [utf8EncodeChar, h1, h2] at hb
        rcases hb with hb | hb <;> omega
      · by_cases h3 : c.toNat < 0x10000
        · simp [utf8EncodeChar, h1, h2, h3] at hb
          rcases hb with hb | hb | hb <;> omega
        · simp [utf8EncodeChar, h1, h2, h3] at hb
          rcases hb with hb | hb | hb | hb <;> omega
    cases hsb : isSafeByte b with
    | false => rfl
    | true => have := isSafeByte_lt b hsb; omega

theorem decode_quoted (cs : List Char) :
    decodeRuns (runs (tokens ((cs.flatMap utf8EncodeChar).flatMap quoteByte))) = cs := by
  induction cs with
  | nil => rfl
  | cons c rest ih =>
    have hbytes : ∀ b ∈ (c :: rest).flatMap utf8EncodeChar, b < 256 := by
      intro b hb
      rw [List.mem_flatMap] at hb
      obtain ⟨x, _, hbx⟩ := hb
      exact utf8EncodeChar_lt_256 x b hbx
    have hbytes' : ∀ b ∈ rest.flatMap utf8EncodeChar, b < 256 := by
      intro b hb
      rw [List.mem_flatMap] at hb
      obtain ⟨x, _, hbx⟩ := hb
      exact utf8EncodeChar_lt_256 x b hbx
    rw [tokens_quoted_bytes _ hbytes, List.flatMap_cons, List.map_append]
    by_cases hs : isSafeByte c.toNat = true
    · have hasc : c.toNat < 0x80 := isSafeByte_lt _ hs
      have he : utf8EncodeChar c = [c.toNat] := by simp [utf8EncodeChar, hasc]
      rw [he]
      have hmap : [c.toNat].map tokenOf = [Sum.inl c] := by
        simp [tokenOf, hs, Char.ofNat_toNat]
      rw [hmap, List.singleton_append, runs_inl, decodeRuns_inl,
        ← tokens_quoted_bytes _ hbytes', ih]
    · have hmap : (utf8EncodeChar c).map tokenOf = (utf8EncodeChar c).map Sum.inr := by
        apply List.map_congr_left
        intro b hb
        have hbu := utf8EncodeChar_unsafe c hs b hb
        simp [tokenOf, hbu]
      rw [hmap, decodeRuns_char_run, ← tokens_quoted_bytes _ hbytes', ih]

theorem unquote_quote (s : String) : unquote (quote s) = s := by
  have hdata : (quote s).data = (s.data.flatMap utf8EncodeChar).flatMap quoteByte := rfl
  unfold unquote
  rw [hdata, decode_quoted]

/-- C6: with a non-empty `download_name`, the response header has exactly
the shape `attachment; filename="E"; filename*=UTF-8..E` where `E` is the
percent-encoding of the percent-decoded supplied name, and
percent-decoding `E` yields exactly the percent-decoded `download_name`
(the `quote` and `unquote` round-trip). -/
theorem getfile_disposition_roundtrip (filename dn : String) (u : Bool)
    (files : List FsFile) (hdn : ¬ dn = "")
    (hex : files.any (fun f => f.name = filename) = true) :
    (get_file filename (some dn) u files).1 =
      Except.ok { status := 200
                  mediaType := "audio/mpeg"
                  contentDisposition := "attachment; filename=\"" ++
                    quote (unquote dn) ++ "\"; filename*=UTF-8\x27\x27" ++
                    quote (unquote dn) } ∧
    unquote (quote (unquote dn)) = unquote dn := by
  constructor
  · simp [get_file, hex, finalFilename, dispositionHeader, hdn]
  · exact unquote_quote (unquote dn)

/-- Witness for C6 at `download_name = "café été.mp3"`: the header
carries `caf%C3%A9%20%C3%A9t%C3%A9.mp3` and decoding it returns exactly
`café été.mp3`. -/
theorem getfile_disposition_witness :
    (get_file "u.mp3" (some "café été.mp3") false [⟨"u.mp3", 0, true⟩]).1 =
      Except.ok { status := 200
                  mediaType := "audio/mpeg"
                  contentDisposition := "attachment; filename=\"" ++
                    quote (unquote "café été.mp3") ++ "\"; filename*=UTF-8\x27\x27" ++
                    quote (unquote "café été.mp3") } ∧
    unquote (quote (unquote "café été.mp3")) = unquote "café été.mp3" ∧
    unquote "café été.mp3" = "café été.mp3" ∧
    quote (unquote "café été.mp3") = "caf%C3%A9%20%C3%A9t%C3%A9.mp3" :=
  ⟨(getfile_disposition_roundtrip "u.mp3" "café été.mp3" false [⟨"u.mp3", 0, true⟩]
      (by decide) (by decide)).1,
   (getfile_disposition_roundtrip "u.mp3" "café été.mp3" false [⟨"u.mp3", 0, true⟩]
      (by decide) (by decide)).2,
   rfl, rfl⟩


end SC
